import Mathlib

/-!
Verification development for the `product_lister` repository.

The repository contains two React invoice-entry forms:

* form 1 (`src/unnamed/part_000`): the "ESTIMATE" editor with per-line
  calculation (`calculatedItems`), invoice totals (`totals`), and the
  keyboard focus navigator (`handleKeyDown`, `addItem`, `removeItem`,
  `handleFieldFocus`);
* form 2 (`src/src/app/page.tsx`): the "Invoice Generator" with its own
  simpler `calculatedItems`/`totals` and the `amountInWords` formatter.

Numeric model: JavaScript numbers are embedded as exact rationals (`ℚ`).
All arithmetic appearing in the calculation core (multiplication,
subtraction, division by the literal 100) is carried out exactly by the
source as well, so `ℚ` is a faithful model on the domain the claims
quantify over.  Text fields are `String`, row ids are `Nat` (they are
created as 1 and `maxId + 1` only).
-/

/-! ## Form 1 data model (`src/unnamed/part_000`) -/

/-- One invoice row of form 1, mirroring `interface Item` of
`src/unnamed/part_000` (lines 20-33). -/
structure Item where
  id : Nat
  code : String
  desc : String
  packSize : String
  batchNo : String
  qty : ℚ
  tp : ℚ
  mrp : ℚ
  discPercent : ℚ
  gstPercent : ℚ
  addGst : ℚ
  advTax : ℚ
  deriving DecidableEq, Repr

/-- `interface CalculatedItem extends Item` of `src/unnamed/part_000`:
the row plus the four derived read-only amounts. -/
structure CalculatedItem extends Item where
  grossAmount : ℚ
  discAmt : ℚ
  gstAmt : ℚ
  netAmount : ℚ
  deriving DecidableEq, Repr

/-- The per-row body of the `calculatedItems` memo of
`src/unnamed/part_000` (lines 318-341).  The `Number(x) || 0` coercions
are identities in the rational model, where every field already holds a
number. -/
def calculatedItem (item : Item) : CalculatedItem :=
  let qty := item.qty
  let tp := item.tp
  let discPercent := item.discPercent
  let gstPercent := item.gstPercent
  let addGst := item.addGst
  let advTax := item.advTax
  let grossAmount := qty * tp
  let discAmt := (grossAmount * discPercent) / 100
  let taxable := grossAmount - discAmt
  let gstAmt := (taxable * gstPercent) / 100
  let netAmount := taxable + gstAmt + addGst + advTax
  { item with
    grossAmount := grossAmount
    discAmt := discAmt
    gstAmt := gstAmt
    netAmount := netAmount }

/-- `calculatedItems` of form 1: the row-wise map over the item list. -/
def calculatedItems (items : List Item) : List CalculatedItem :=
  items.map calculatedItem

/-- The accumulator shape of the `totals` reduce of
`src/unnamed/part_000` (lines 343-355). -/
structure Totals where
  gross : ℚ
  disc : ℚ
  gst : ℚ
  addGst : ℚ
  advTax : ℚ
  net : ℚ
  deriving DecidableEq, Repr

/-- The `totals` memo of `src/unnamed/part_000` (lines 343-355): a left
fold with an all-zero initial accumulator.  `Number(item.addGst || 0)`
is the identity on rationals (`0 || 0` evaluates to `0` in JS). -/
def totals (l : List CalculatedItem) : Totals :=
  l.foldl
    (fun acc item =>
      { gross := acc.gross + item.grossAmount
        disc := acc.disc + item.discAmt
        gst := acc.gst + item.gstAmt
        addGst := acc.addGst + item.addGst
        advTax := acc.advTax + item.advTax
        net := acc.net + item.netAmount })
    { gross := 0, disc := 0, gst := 0, addGst := 0, advTax := 0, net := 0 }

/-! ## Form 2 data model (`src/src/app/page.tsx`) -/

/-- One invoice row of form 2, mirroring `interface Item` of
`src/src/app/page.tsx` (lines 16-23). -/
structure Item2 where
  id : Nat
  desc : String
  qty : ℚ
  price : ℚ
  discount : ℚ
  gstPercent : ℚ
  deriving DecidableEq, Repr

/-- Form 2 row plus its two derived amounts. -/
structure CalculatedItem2 extends Item2 where
  amount : ℚ
  netAmount : ℚ
  deriving DecidableEq, Repr

/-- The per-row body of the `calculatedItems` memo of
`src/src/app/page.tsx` (lines 69-75): `amount = qty * price`,
`netAmount = amount - discount`.  No other field enters the result. -/
def calculatedItem2 (item : Item2) : CalculatedItem2 :=
  let amount := item.qty * item.price
  let netAmount := amount - item.discount
  { item with amount := amount, netAmount := netAmount }

/-- `calculatedItems` of form 2. -/
def calculatedItems2 (items : List Item2) : List CalculatedItem2 :=
  items.map calculatedItem2

/-- Accumulator of the `totals` reduce of `src/src/app/page.tsx`
(lines 77-86). -/
structure Totals2 where
  subTotal : ℚ
  discount : ℚ
  total : ℚ
  deriving DecidableEq, Repr

/-- The `totals` memo of `src/src/app/page.tsx` (lines 77-86). -/
def totals2 (l : List CalculatedItem2) : Totals2 :=
  l.foldl
    (fun acc item =>
      { subTotal := acc.subTotal + item.amount
        discount := acc.discount + item.discount
        total := acc.total + item.netAmount })
    { subTotal := 0, discount := 0, total := 0 }

/-! ## JavaScript numeric helpers for the words formatter -/

/-- `Math.trunc`-style integer part (rounds toward zero), used to model
the JavaScript `%` operator. -/
def jsTrunc (q : ℚ) : Int :=
  if q < 0 then -(⌊-q⌋) else ⌊q⌋

/-- JavaScript `%` on numbers: `a - b * trunc(a / b)` (the remainder
carries the sign of the dividend). -/
def jsMod (a b : ℚ) : ℚ :=
  a - b * ((jsTrunc (a / b) : Int) : ℚ)

/-- `Math.round`: half-up rounding toward positive infinity. -/
def jsRound (q : ℚ) : Int := ⌊q + 1 / 2⌋

/-- JavaScript array read `l[i]`: `none` models `undefined` (negative
or out-of-range index). -/
def jsArrayGet (l : List String) (i : Int) : Option String :=
  if i < 0 then none else l.get? i.toNat

/-- Interpolating a possibly-`undefined` JS value into a template
string: `undefined` prints as `"undefined"`. -/
def jsUndef (o : Option String) : String := o.getD "undefined"

/-- JavaScript `a || b` on a possibly-`undefined` string `a`: both
`undefined` and the empty string are falsy. -/
def jsOrElse (o : Option String) (d : String) : String :=
  match o with
  | some s => if s = "" then d else s
  | none => d

/-- The `words` table of `amountInWords` (`src/src/app/page.tsx`,
lines 122-125). -/
def wordsTable : List String :=
  ["", "One", "Two", "Three", "Four", "Five", "Six", "Seven", "Eight",
   "Nine", "Ten", "Eleven", "Twelve", "Thirteen", "Fourteen", "Fifteen",
   "Sixteen", "Seventeen", "Eighteen", "Nineteen"]

/-- The `tens` table of `amountInWords` (`src/src/app/page.tsx`,
line 126). -/
def tensTable : List String :=
  ["", "", "Twenty", "Thirty", "Forty", "Fifty", "Sixty", "Seventy",
   "Eighty", "Ninety"]

/-- The group renderer `words[n] || ` + backtick template
`tens[floor(n/10)] words[n mod 10]` used for the crore, lakh and
thousand groups of `amountInWords`. -/
def groupWords (n : Int) : String :=
  jsOrElse (jsArrayGet wordsTable n)
    (jsUndef (jsArrayGet tensTable (Int.fdiv n 10)) ++ " " ++
     jsUndef (jsArrayGet wordsTable (Int.tmod n 10)))

/-- `amountInWords` of `src/src/app/page.tsx` (lines 121-155), the
amount-to-words formatter. -/
def amountInWords (amount : ℚ) : String :=
  if amount = 0 then "Zero Rupees Only"
  else
    let result := "Rupees "
    let crores := ⌊amount / 10000000⌋
    let lakhs := ⌊(jsMod amount 10000000) / 100000⌋
    let thousands := ⌊(jsMod amount 100000) / 1000⌋
    let hundreds := ⌊(jsMod amount 1000) / 100⌋
    let tensAndOnes := ⌊jsMod amount 100⌋
    let result := if crores > 0 then result ++ groupWords crores ++ " Crore " else result
    let result := if lakhs > 0 then result ++ groupWords lakhs ++ " Lakh " else result
    let result := if thousands > 0 then result ++ groupWords thousands ++ " Thousand " else result
    let result :=
      if hundreds > 0 then result ++ jsUndef (jsArrayGet wordsTable hundreds) ++ " Hundred "
      else result
    let result :=
      if tensAndOnes > 0 then
        if tensAndOnes < 20 then
          result ++ jsUndef (jsArrayGet wordsTable tensAndOnes) ++ " "
        else
          result ++ jsUndef (jsArrayGet tensTable (Int.fdiv tensAndOnes 10)) ++ " " ++
            jsUndef (jsArrayGet wordsTable (Int.tmod tensAndOnes 10)) ++ " "
      else result
    let paisa := jsRound ((amount - ((⌊amount⌋ : Int) : ℚ)) * 100)
    let result := if paisa > 0 then result ++ "and " ++ toString paisa ++ "/100" else result
    result ++ " Only"

/-! ### Evaluation bridge for the formatter on whole-number amounts

Rational arithmetic does not reduce inside the kernel, so concrete
formatter outputs are obtained through a `Nat`-level image of
`amountInWords` on whole-rupee inputs, proved to agree with the source
embedding for every natural-number amount. -/

/-- The group renderer of `amountInWords` specialized to natural-number
group values. -/
def groupWordsNat (k : ℕ) : String :=
  jsOrElse (wordsTable.get? k)
    (jsUndef (tensTable.get? (k / 10)) ++ " " ++ jsUndef (wordsTable.get? (k % 10)))

/-- `amountInWords` specialized to a whole-rupee amount `n : ℕ` (no
paisa part), with all magnitude groups computed by natural division. -/
def amountInWordsNat (n : ℕ) : String :=
  if n = 0 then "Zero Rupees Only"
  else
    let result := "Rupees "
    let crores := n / 10000000
    let lakhs := (n % 10000000) / 100000
    let thousands := (n % 100000) / 1000
    let hundreds := (n % 1000) / 100
    let tensAndOnes := n % 100
    let result := if 0 < crores then result ++ groupWordsNat crores ++ " Crore " else result
    let result := if 0 < lakhs then result ++ groupWordsNat lakhs ++ " Lakh " else result
    let result := if 0 < thousands then result ++ groupWordsNat thousands ++ " Thousand " else result
    let result :=
      if 0 < hundreds then result ++ jsUndef (wordsTable.get? hundreds) ++ " Hundred "
      else result
    let result :=
      if 0 < tensAndOnes then
        if tensAndOnes < 20 then
          result ++ jsUndef (wordsTable.get? tensAndOnes) ++ " "
        else
          result ++ jsUndef (tensTable.get? (tensAndOnes / 10)) ++ " " ++
            jsUndef (wordsTable.get? (tensAndOnes % 10)) ++ " "
      else result
    result ++ " Only"

/-! ## Form 1 focus navigator (`src/unnamed/part_000`)

The UI-held mutable session state — the item collection and the focus
position — is modelled as an explicit state record; each React handler
becomes a state-transition function.  The `setTimeout`-deferred focus
assignments of the source run within the same logical update, so the
transition functions perform the row mutation and the focus assignment
in one step, mutation first. -/

/-- `interface FocusPosition` of `src/unnamed/part_000` (lines 142-145). -/
structure FocusPosition where
  rowId : Nat
  field : String
  deriving DecidableEq, Repr

/-- The session state owned by the component: the `items` and
`focusPosition` `useState` cells of `src/unnamed/part_000`. -/
structure NavState where
  items : List Item
  focus : FocusPosition
  deriving Repr

/-- The fixed tab-order `fields` array of `handleKeyDown`
(`src/unnamed/part_000`, line 187) — the FieldOrder of the spec. -/
def fieldOrder : List String :=
  ["code", "desc", "packSize", "batchNo", "qty", "tp", "mrp",
   "discPercent", "gstPercent", "addGst", "advTax"]

/-- The blank row shape used for the initial state, for `addItem` and
for the reset branch of `removeItem`: default `qty = 1`, all other
numerics `0`, empty text. -/
def blankItem (id : Nat) : Item :=
  { id := id, code := "", desc := "", packSize := "", batchNo := "",
    qty := 1, tp := 0, mrp := 0, discPercent := 0, gstPercent := 0,
    addGst := 0, advTax := 0 }

/-- The ids of the rows currently in the collection. -/
def itemIds (items : List Item) : List Nat := items.map Item.id

/-- `Math.max(...ids)` over the current ids, `0` when there are none
(`addItem`, `src/unnamed/part_000` lines 223-224; the
`typeof id === 'number' && !isNaN(id)` filter is the identity here
because ids are naturals by construction). -/
def maxIdOf (items : List Item) : Nat :=
  let ids := itemIds items
  if ids.isEmpty then 0 else ids.foldr max 0

/-- `addItem` of `src/unnamed/part_000` (lines 222-249): append a blank
row with id `maxId + 1`, then focus its first field. -/
def addItem (s : NavState) : NavState :=
  let newId := maxIdOf s.items + 1
  { items := s.items ++ [blankItem newId],
    focus := { rowId := newId, field := "code" } }

/-- `removeItem` of `src/unnamed/part_000` (lines 251-282): with at most
one row left, reset to a single blank row (id 1) and focus it; otherwise
drop the row and, when the dropped row was focused, focus the first
field of the first remaining row.  `newItems[0]` in the source is an
unguarded JS index; its in-range use on every reachable state is proved
below, and the model reads it with a default. -/
def removeItem (s : NavState) (id : Nat) : NavState :=
  if s.items.length ≤ 1 then
    { items := [blankItem 1], focus := { rowId := 1, field := "code" } }
  else
    { items := s.items.filter (fun it => it.id != id),
      focus :=
        if s.focus.rowId = id then
          { rowId := ((s.items.filter (fun it => it.id != id)).headD (blankItem 1)).id,
            field := "code" }
        else s.focus }

/-- JS `Array.prototype.indexOf`: first index of `x`, `-1` when absent. -/
def jsIndexOf : List String → String → Int
  | [], _ => -1
  | a :: as, x =>
    if a = x then 0
    else
      let r := jsIndexOf as x
      if r = -1 then -1 else r + 1

/-- JS `Array.prototype.findIndex`: first index satisfying `p`, `-1`
when none does. -/
def jsFindIndex (p : Item → Bool) : List Item → Int
  | [] => -1
  | a :: as =>
    if p a then 0
    else
      let r := jsFindIndex p as
      if r = -1 then -1 else r + 1

/-- JS array read `items[i]` on item lists.  Every use below is guarded
by an in-range proof; the default is never reached on a reachable
state. -/
def jsItemGet (l : List Item) (i : Int) : Item :=
  if i < 0 then blankItem 0 else l.getD i.toNat (blankItem 0)

/-- The key events distinguished by `handleKeyDown`. -/
inductive Key where
  | enter
  | tab
  | arrowUp
  | arrowDown
  | other
  deriving DecidableEq, Repr

/-- `handleKeyDown` of `src/unnamed/part_000` (lines 182-220): Enter/Tab
advance within the field order, then to the next row, then grow the grid
via `addItem`; ArrowUp/ArrowDown move between rows in the same column
with boundary clamping; other keys fall through. -/
def handleKeyDown (s : NavState) (k : Key) (rowId : Nat) (field : String) : NavState :=
  if k = .enter ∨ k = .tab then
    if jsIndexOf fieldOrder field < (fieldOrder.length : Int) - 1 then
      { s with focus := { rowId := rowId,
                          field := jsUndef (jsArrayGet fieldOrder
                            (jsIndexOf fieldOrder field + 1)) } }
    else
      if jsFindIndex (fun it => it.id == rowId) s.items < (s.items.length : Int) - 1 then
        { s with focus := { rowId := (jsItemGet s.items
                              (jsFindIndex (fun it => it.id == rowId) s.items + 1)).id,
                            field := "code" } }
      else addItem s
  else if k = .arrowUp ∨ k = .arrowDown then
    if 0 ≤ jsFindIndex (fun it => it.id == rowId) s.items +
          (if k = .arrowDown then 1 else -1) ∧
        jsFindIndex (fun it => it.id == rowId) s.items +
          (if k = .arrowDown then 1 else -1) < (s.items.length : Int) then
      { s with focus := { rowId := (jsItemGet s.items
                            (jsFindIndex (fun it => it.id == rowId) s.items +
                              (if k = .arrowDown then 1 else -1))).id,
                          field := field } }
    else s
  else s

/-- `handleFieldFocus` of `src/unnamed/part_000` (lines 175-179): direct
focus, idempotent on repeats. -/
def handleFieldFocus (s : NavState) (rowId : Nat) (field : String) : NavState :=
  if s.focus.rowId ≠ rowId ∨ s.focus.field ≠ field then
    { s with focus := { rowId := rowId, field := field } }
  else s

/-- The initial state of the component: one blank row with id 1,
focus on `(1, code)` (`useState` initializers and the mount effect of
`src/unnamed/part_000`). -/
def initState : NavState :=
  { items := [blankItem 1], focus := { rowId := 1, field := "code" } }

/-- One operator interaction against the grid. -/
inductive Op where
  | add
  | remove (id : Nat)
  | key (k : Key) (rowId : Nat) (field : String)
  | focusCell (rowId : Nat) (field : String)
  deriving DecidableEq, Repr

/-- Dispatch one interaction to the corresponding source handler. -/
def step (s : NavState) : Op → NavState
  | .add => addItem s
  | .remove id => removeItem s id
  | .key k r f => handleKeyDown s k r f
  | .focusCell r f => handleFieldFocus s r f

/-- Run a finite interaction sequence from a state. -/
def run (s : NavState) (ops : List Op) : NavState := ops.foldl step s

/-- An interaction the rendering layer can actually deliver: key and
direct-focus events originate from a rendered input, so they name an
existing row and a field of the tab order.  Add/remove requests carry no
such constraint (the code tolerates any id). -/
def validOp (s : NavState) : Op → Bool
  | .add => true
  | .remove _ => true
  | .key _ r f => (itemIds s.items).contains r && fieldOrder.contains f
  | .focusCell r f => (itemIds s.items).contains r && fieldOrder.contains f

/-- Every interaction of the sequence is deliverable in the state where
it fires. -/
def validTrace : NavState → List Op → Bool
  | _, [] => true
  | s, op :: ops => validOp s op && validTrace (step s op) ops

/-- The focus names a live row and a field of the tab order. -/
def FocusLive (s : NavState) : Prop :=
  s.focus.rowId ∈ itemIds s.items ∧ s.focus.field ∈ fieldOrder

/-- Row ids are positive, pairwise distinct, and the id the next
`addItem` would assign is fresh. -/
def IdInv (items : List Item) : Prop :=
  (itemIds items).Nodup ∧ (∀ n ∈ itemIds items, 0 < n) ∧
    maxIdOf items + 1 ∉ itemIds items

/-! ### Claim-statement vocabulary -/

/-- The tab-order successor of a field (spec language, derived from
`fieldOrder`): `none` when the field is last or absent. -/
def nextField (f : String) : Option String :=
  fieldOrder.get? (fieldOrder.indexOf f + 1)

/-- The behaviour the spec requires of one Advance (Enter/Tab) event
fired at the current focus `(r, f)`. -/
def EnterSpec (s : NavState) : Prop :=
  (s.focus.field ≠ "advTax" →
    (handleKeyDown s Key.enter s.focus.rowId s.focus.field).items = s.items ∧
    (handleKeyDown s Key.enter s.focus.rowId s.focus.field).focus.rowId = s.focus.rowId ∧
    some (handleKeyDown s Key.enter s.focus.rowId s.focus.field).focus.field =
      nextField s.focus.field) ∧
  (s.focus.field = "advTax" →
    ∀ j : Nat, jsFindIndex (fun it => it.id == s.focus.rowId) s.items = (j : Int) →
      (j + 1 < s.items.length →
        (handleKeyDown s Key.enter s.focus.rowId s.focus.field).items = s.items ∧
        (handleKeyDown s Key.enter s.focus.rowId s.focus.field).focus =
          { rowId := (s.items.getD (j + 1) (blankItem 0)).id, field := "code" }) ∧
      (j + 1 = s.items.length →
        handleKeyDown s Key.enter s.focus.rowId s.focus.field = addItem s ∧
        (addItem s).focus.field = "code" ∧
        (addItem s).focus.rowId ∈ itemIds (addItem s).items ∧
        (addItem s).items.length = s.items.length + 1))

/-- The behaviour the spec requires of one row removal. -/
def RemoveSpec (s : NavState) (id : Nat) : Prop :=
  (removeItem s id).items ≠ [] ∧
  (s.items.length ≤ 1 →
    (removeItem s id).items = [blankItem 1] ∧
    (removeItem s id).focus = { rowId := 1, field := "code" }) ∧
  (1 < s.items.length → s.focus.rowId = id →
    (removeItem s id).focus =
      { rowId := ((s.items.filter (fun it => it.id != id)).headD (blankItem 1)).id,
        field := "code" })

/-- Items related by "equal except possibly in `mrp`". -/
def eqExceptMrp (a b : Item) : Prop :=
  a.id = b.id ∧ a.code = b.code ∧ a.desc = b.desc ∧ a.packSize = b.packSize ∧
  a.batchNo = b.batchNo ∧ a.qty = b.qty ∧ a.tp = b.tp ∧ a.discPercent = b.discPercent ∧
  a.gstPercent = b.gstPercent ∧ a.addGst = b.addGst ∧ a.advTax = b.advTax

/-- The four derived per-line amounts of a form-1 computed item. -/
def computedFields (c : CalculatedItem) : ℚ × ℚ × ℚ × ℚ :=
  (c.grossAmount, c.discAmt, c.gstAmt, c.netAmount)

/-- The net-amount formula exactly as the spec states it
(`net = taxable + gstAmt + additionalGst + advanceTax` with
`taxable = gross - gross * discountPercent / 100` and
`gstAmt = taxable * gstPercent / 100`), used to compare the second
form's code against the spec's words. -/
def specFormulaNet (quantity unitPrice discountPercent gstPercent additionalGst advanceTax : ℚ) : ℚ :=
  let gross := quantity * unitPrice
  let discountAmt := gross * discountPercent / 100
  let taxable := gross - discountAmt
  let gstAmt := taxable * gstPercent / 100
  taxable + gstAmt + additionalGst + advanceTax

/-- The end-to-end scenario row of the spec: `quantity = 2`,
`unitPrice = 100`, `discountPercent = 10`, `gstPercent = 5`. -/
def scenarioItem : Item :=
  { blankItem 1 with qty := 2, tp := 100, discPercent := 10, gstPercent := 5 }

/-- A form-2 row with a nonzero GST percentage: `qty = 2`,
`price = 100`, `discount = 0`, `gstPercent = 5`. -/
def gstItem2 : Item2 :=
  { id := 1, desc := "", qty := 2, price := 100, discount := 0, gstPercent := 5 }

/-- A row with every numeric field non-negative but a discount above
100 percent. -/
def steepDiscountItem : Item :=
  { blankItem 1 with qty := 1, tp := 100, discPercent := 200 }

/-- An in-range row for the monotonicity witness. -/
def monoBaseItem : Item :=
  { blankItem 1 with qty := 1, tp := 10, discPercent := 50, gstPercent := 10 }

/-- Two computed rows used to exhibit order-independence of the totals. -/
def permItemA : CalculatedItem := calculatedItem { blankItem 1 with qty := 3, tp := 7 }

/-- Second row for the order-independence witness. -/
def permItemB : CalculatedItem := calculatedItem { blankItem 2 with qty := 5, tp := 11 }

/-- A row for the mrp-noninterference witness. -/
def mrpItemLow : Item := { blankItem 1 with qty := 2, tp := 50, mrp := 10 }

/-- The same row with a different `mrp`. -/
def mrpItemHigh : Item := { blankItem 1 with qty := 2, tp := 50, mrp := 999 }

theorem floor_natCast_div (n m : ℕ) : ⌊(n : ℚ) / (m : ℚ)⌋ = ((n / m : ℕ) : ℤ) := by
  rw [Rat.floor_natCast_div_natCast, Int.ofNat_ediv]

theorem jsTrunc_natCast_div (n m : ℕ) : jsTrunc ((n : ℚ) / (m : ℚ)) = ((n / m : ℕ) : ℤ) := by
  unfold jsTrunc
  rw [if_neg, floor_natCast_div]
  push_neg
  positivity

theorem jsMod_natCast (n m : ℕ) : jsMod (n : ℚ) (m : ℚ) = ((n % m : ℕ) : ℚ) := by
  unfold jsMod
  rw [jsTrunc_natCast_div, Int.cast_natCast]
  have h2 : ((n % m : ℕ) : ℚ) + ((m : ℕ) : ℚ) * ((n / m : ℕ) : ℚ) = ((n : ℕ) : ℚ) := by
    exact_mod_cast congrArg (fun x : ℕ => (x : ℚ)) (Nat.mod_add_div n m)
  linarith

theorem jsArrayGet_natCast (l : List String) (k : ℕ) : jsArrayGet l (k : ℤ) = l.get? k := by
  unfold jsArrayGet
  rw [if_neg (not_lt.2 (Int.natCast_nonneg k)), Int.toNat_natCast]

theorem fdiv_ten_natCast (k : ℕ) : Int.fdiv (k : ℤ) 10 = ((k / 10 : ℕ) : ℤ) := by
  rw [Int.fdiv_eq_ediv _ (by norm_num), show (10 : ℤ) = ((10 : ℕ) : ℤ) from rfl,
    ← Int.ofNat_ediv]

theorem tmod_ten_natCast (k : ℕ) : Int.tmod (k : ℤ) 10 = ((k % 10 : ℕ) : ℤ) := by
  rw [show (10 : ℤ) = ((10 : ℕ) : ℤ) from rfl, ← Int.ofNat_tmod]

theorem groupWords_natCast (k : ℕ) : groupWords (k : ℤ) = groupWordsNat k := by
  unfold groupWords groupWordsNat
  rw [fdiv_ten_natCast, tmod_ten_natCast, jsArrayGet_natCast, jsArrayGet_natCast,
    jsArrayGet_natCast]

theorem jsRound_zero : jsRound 0 = 0 := by
  unfold jsRound
  rw [zero_add, show ((1 : ℚ) / 2) = (((1 : ℕ) : ℚ) / ((2 : ℕ) : ℚ)) by norm_num,
    floor_natCast_div]
  rfl

/-- On a whole-rupee amount the source formatter agrees with its
`Nat`-level image. -/
theorem amountInWords_natCast (n : ℕ) :
    amountInWords (n : ℚ) = amountInWordsNat n := by
  unfold amountInWords amountInWordsNat
  by_cases h0 : n = 0
  · subst h0; norm_num
  · rw [if_neg (by exact_mod_cast h0), if_neg h0]
    have hpos : ∀ k : ℕ, (((k : ℤ) > 0)) = (0 < k) := fun k => by
      simp [Int.natCast_pos]
    have h20 : ∀ k : ℕ, (((k : ℤ) < 20)) = (k < 20) := fun k => propext (by omega)
    rw [show (10000000 : ℚ) = ((10000000 : ℕ) : ℚ) by norm_cast,
      show (100000 : ℚ) = ((100000 : ℕ) : ℚ) by norm_cast,
      show (1000 : ℚ) = ((1000 : ℕ) : ℚ) by norm_cast,
      show (100 : ℚ) = ((100 : ℕ) : ℚ) by norm_cast]
    simp only [jsMod_natCast, floor_natCast_div, Int.floor_natCast, Int.cast_natCast,
      sub_self, zero_mul, jsRound_zero, groupWords_natCast, jsArrayGet_natCast,
      fdiv_ten_natCast, tmod_ten_natCast, hpos, h20, gt_iff_lt, lt_self_iff_false,
      if_false]

/-! ### Helper lemmas about the navigator primitives -/

theorem mem_le_foldr_max {l : List Nat} {x : Nat} (hx : x ∈ l) : x ≤ l.foldr max 0 := by
  induction l with
  | nil => cases hx
  | cons a t ih =>
    rcases List.mem_cons.1 hx with rfl | ht
    · exact le_max_left _ _
    · exact le_trans (ih ht) (le_max_right _ _)

theorem mem_le_maxIdOf {items : List Item} {n : Nat} (h : n ∈ itemIds items) :
    n ≤ maxIdOf items := by
  have hne : (itemIds items).isEmpty = false := by
    cases hl : itemIds items with
    | nil => rw [hl] at h; cases h
    | cons a t => rfl
  unfold maxIdOf
  simp only [hne]
  rw [if_neg (by simp)]
  exact mem_le_foldr_max h

theorem fresh_not_mem (items : List Item) : maxIdOf items + 1 ∉ itemIds items := by
  intro h
  exact absurd (mem_le_maxIdOf h) (by omega)

theorem itemIds_append (items : List Item) (it : Item) :
    itemIds (items ++ [it]) = itemIds items ++ [it.id] := by
  simp [itemIds]

theorem getD_mem {l : List Item} {n : Nat} (d : Item) (h : n < l.length) :
    l.getD n d ∈ l := by
  rw [List.getD_eq_getElem l d h]
  exact List.getElem_mem h

theorem headD_mem {l : List Item} (d : Item) (h : l ≠ []) : l.headD d ∈ l := by
  cases l with
  | nil => exact absurd rfl h
  | cons a t => exact List.mem_cons_self a t

theorem filter_ne_nonempty {items : List Item} {id : Nat}
    (h2 : 2 ≤ items.length) (hnd : (itemIds items).Nodup) :
    items.filter (fun it => it.id != id) ≠ [] := by
  intro hnil
  have hall := List.filter_eq_nil_iff.1 hnil
  match items, h2 with
  | a :: b :: t, _ =>
    have hab : a.id ≠ b.id := by
      have hnd2 : (a.id :: b.id :: List.map Item.id t).Nodup := by
        simpa [itemIds] using hnd
      have h1 := (List.nodup_cons.1 hnd2).1
      intro hh
      exact h1 (by simp [hh])
    have ha : a.id = id := by
      have := hall a (by simp)
      simpa [bne_iff_ne] using this
    have hb : b.id = id := by
      have := hall b (by simp)
      simpa [bne_iff_ne] using this
    exact hab (ha.trans hb.symm)

theorem jsFindIndex_of_mem {p : Item → Bool} {l : List Item}
    (h : ∃ it ∈ l, p it = true) :
    ∃ k : Nat, jsFindIndex p l = (k : Int) ∧ k < l.length := by
  induction l with
  | nil => rcases h with ⟨it, hm, _⟩; cases hm
  | cons a t ih =>
    by_cases hpa : p a = true
    · exact ⟨0, by simp [jsFindIndex, hpa], by simp⟩
    · rcases h with ⟨it, hm, hp⟩
      rcases List.mem_cons.1 hm with rfl | hmt
      · exact absurd hp hpa
      · rcases ih ⟨it, hmt, hp⟩ with ⟨k, hk, hkl⟩
        refine ⟨k + 1, ?_, by simpa using Nat.succ_lt_succ hkl⟩
        rw [jsFindIndex, if_neg hpa]
        simp only [hk]
        rw [if_neg (by omega)]
        push_cast
        ring

theorem jsItemGet_mem {l : List Item} {i : Int} (h0 : 0 ≤ i) (hl : i < (l.length : Int)) :
    jsItemGet l i ∈ l := by
  unfold jsItemGet
  rw [if_neg (not_lt.2 h0)]
  exact getD_mem _ ((Int.toNat_lt h0).2 hl)

/-! ### Invariant preservation -/

theorem idInv_addItem (s : NavState) (h : IdInv s.items) : IdInv ((addItem s).items) := by
  rcases h with ⟨hnd, hpos, hfresh⟩
  have hids : itemIds ((addItem s).items) = itemIds s.items ++ [maxIdOf s.items + 1] := by
    simp [addItem, itemIds, blankItem]
  refine ⟨?_, ?_, fresh_not_mem _⟩
  · rw [hids, List.nodup_append]
    refine ⟨hnd, List.nodup_singleton _, ?_⟩
    intro a ha hb
    rw [List.mem_singleton] at hb
    subst hb
    exact hfresh ha
  · intro n hn
    rw [hids, List.mem_append, List.mem_singleton] at hn
    rcases hn with hn | rfl
    · exact hpos n hn
    · omega

theorem idInv_removeItem (s : NavState) (id : Nat) (h : IdInv s.items) :
    IdInv ((removeItem s id).items) := by
  rcases h with ⟨hnd, hpos, _⟩
  unfold removeItem
  by_cases hlen : s.items.length ≤ 1
  · rw [if_pos hlen]
    refine ⟨by decide, by decide, by decide⟩
  · rw [if_neg hlen]
    have hsub : List.Sublist (itemIds (s.items.filter (fun it => it.id != id)))
        (itemIds s.items) :=
      List.Sublist.map Item.id (List.filter_sublist s.items)
    refine ⟨hnd.sublist hsub, ?_, fresh_not_mem _⟩
    intro n hn
    exact hpos n (hsub.subset hn)

theorem handleKeyDown_items (s : NavState) (k : Key) (r : Nat) (f : String) :
    (handleKeyDown s k r f).items = s.items ∨ handleKeyDown s k r f = addItem s := by
  simp only [handleKeyDown]
  split_ifs <;> first | exact Or.inl rfl | exact Or.inr rfl

theorem idInv_step (s : NavState) (op : Op) (h : IdInv s.items) : IdInv ((step s op).items) := by
  cases op with
  | add => exact idInv_addItem s h
  | remove id => exact idInv_removeItem s id h
  | key k r f =>
    rcases handleKeyDown_items s k r f with hit | hadd
    · show IdInv ((handleKeyDown s k r f).items)
      rw [hit]; exact h
    · show IdInv ((handleKeyDown s k r f).items)
      rw [hadd]; exact idInv_addItem s h
  | focusCell r f =>
    show IdInv ((handleFieldFocus s r f).items)
    unfold handleFieldFocus
    split_ifs <;> exact h

theorem idInv_run (ops : List Op) : ∀ s : NavState, IdInv s.items → IdInv ((run s ops).items) := by
  induction ops with
  | nil => intro s h; exact h
  | cons op ops ih =>
    intro s h
    exact ih (step s op) (idInv_step s op h)

theorem focusLive_addItem (s : NavState) : FocusLive (addItem s) := by
  constructor
  · simp [addItem, itemIds, blankItem]
  · simp [addItem, fieldOrder]

theorem focusLive_removeItem (s : NavState) (id : Nat)
    (hnd : (itemIds s.items).Nodup) (h : FocusLive s) :
    FocusLive (removeItem s id) := by
  unfold removeItem
  by_cases hlen : s.items.length ≤ 1
  · rw [if_pos hlen]
    exact ⟨by simp [itemIds, blankItem], by simp [fieldOrder]⟩
  · rw [if_neg hlen]
    by_cases hfoc : s.focus.rowId = id
    · rw [if_pos hfoc]
      have hne : s.items.filter (fun it => it.id != id) ≠ [] :=
        filter_ne_nonempty (by omega) hnd
      exact ⟨List.mem_map_of_mem Item.id (headD_mem _ hne), by simp [fieldOrder]⟩
    · rw [if_neg hfoc]
      rcases h with ⟨hrow, hfield⟩
      rcases List.mem_map.1 hrow with ⟨it, hmem, hid⟩
      have hfil : it ∈ s.items.filter (fun it => it.id != id) := by
        rw [List.mem_filter]
        exact ⟨hmem, by rw [bne_iff_ne, hid]; exact hfoc⟩
      refine ⟨?_, hfield⟩
      show s.focus.rowId ∈ itemIds (s.items.filter (fun it => it.id != id))
      rw [← hid]
      exact List.mem_map_of_mem Item.id hfil

theorem focusLive_handleKeyDown (s : NavState) (k : Key) (r : Nat) (f : String)
    (h : FocusLive s) (hr : r ∈ itemIds s.items) (hf : f ∈ fieldOrder) :
    FocusLive (handleKeyDown s k r f) := by
  have hfind : ∃ j : Nat,
      jsFindIndex (fun it => it.id == r) s.items = (j : Int) ∧ j < s.items.length := by
    rcases List.mem_map.1 hr with ⟨it, hmem, hid⟩
    exact jsFindIndex_of_mem ⟨it, hmem, by rw [beq_iff_eq]; exact hid⟩
  rcases hfind with ⟨j, hj, hjl⟩
  unfold handleKeyDown
  by_cases hk1 : k = Key.enter ∨ k = Key.tab
  · rw [if_pos hk1]
    by_cases hidx : jsIndexOf fieldOrder f < (fieldOrder.length : Int) - 1
    · rw [if_pos hidx]
      refine ⟨hr, ?_⟩
      show jsUndef (jsArrayGet fieldOrder (jsIndexOf fieldOrder f + 1)) ∈ fieldOrder
      fin_cases hf <;> first | decide | exact absurd hidx (by decide)
    · rw [if_neg hidx]
      by_cases hrow : jsFindIndex (fun it => it.id == r) s.items < (s.items.length : Int) - 1
      · rw [if_pos hrow]
        refine ⟨?_, ?_⟩
        · show (jsItemGet s.items (jsFindIndex (fun it => it.id == r) s.items + 1)).id ∈
            itemIds s.items
          rw [hj] at hrow ⊢
          exact List.mem_map_of_mem Item.id (jsItemGet_mem (by omega) (by omega))
        · show "code" ∈ fieldOrder
          decide
      · rw [if_neg hrow]
        exact focusLive_addItem s
  · rw [if_neg hk1]
    by_cases hk2 : k = Key.arrowUp ∨ k = Key.arrowDown
    · rw [if_pos hk2]
      by_cases hg : 0 ≤ jsFindIndex (fun it => it.id == r) s.items +
            (if k = Key.arrowDown then 1 else -1) ∧
          jsFindIndex (fun it => it.id == r) s.items +
            (if k = Key.arrowDown then 1 else -1) < (s.items.length : Int)
      · rw [if_pos hg]
        exact ⟨List.mem_map_of_mem Item.id (jsItemGet_mem hg.1 hg.2), hf⟩
      · rw [if_neg hg]
        exact h
    · rw [if_neg hk2]
      exact h

theorem focusLive_handleFieldFocus (s : NavState) (r : Nat) (f : String)
    (h : FocusLive s) (hr : r ∈ itemIds s.items) (hf : f ∈ fieldOrder) :
    FocusLive (handleFieldFocus s r f) := by
  unfold handleFieldFocus
  split_ifs
  · exact ⟨hr, hf⟩
  · exact h

theorem focusLive_step (s : NavState) (op : Op) (hid : IdInv s.items)
    (h : FocusLive s) (hv : validOp s op = true) : FocusLive (step s op) := by
  cases op with
  | add => exact focusLive_addItem s
  | remove id => exact focusLive_removeItem s id hid.1 h
  | key k r f =>
    have hv2 : r ∈ itemIds s.items ∧ f ∈ fieldOrder := by simpa [validOp] using hv
    exact focusLive_handleKeyDown s k r f h hv2.1 hv2.2
  | focusCell r f =>
    have hv2 : r ∈ itemIds s.items ∧ f ∈ fieldOrder := by simpa [validOp] using hv
    exact focusLive_handleFieldFocus s r f h hv2.1 hv2.2

theorem focusLive_run (ops : List Op) :
    ∀ s : NavState, IdInv s.items → FocusLive s → validTrace s ops = true →
      FocusLive (run s ops) := by
  induction ops with
  | nil => intro s _ h _; exact h
  | cons op ops ih =>
    intro s hid h hv
    have hv2 : validOp s op = true ∧ validTrace (step s op) ops = true := by
      simpa [validTrace, Bool.and_eq_true] using hv
    exact ih (step s op) (idInv_step s op hid) (focusLive_step s op hid h hv2.1) hv2.2

theorem idInv_initState : IdInv initState.items := by
  refine ⟨by decide, by decide, by decide⟩

theorem focusLive_initState : FocusLive initState := by
  refine ⟨by decide, by decide⟩

/-! ### Totals as field-wise sums -/

theorem totals_foldl_eq (l : List CalculatedItem) : ∀ acc : Totals,
    List.foldl
      (fun acc item =>
        { gross := acc.gross + item.grossAmount
          disc := acc.disc + item.discAmt
          gst := acc.gst + item.gstAmt
          addGst := acc.addGst + item.addGst
          advTax := acc.advTax + item.advTax
          net := acc.net + item.netAmount })
      acc l =
      { gross := acc.gross + (l.map fun c => c.grossAmount).sum
        disc := acc.disc + (l.map fun c => c.discAmt).sum
        gst := acc.gst + (l.map fun c => c.gstAmt).sum
        addGst := acc.addGst + (l.map fun c => c.addGst).sum
        advTax := acc.advTax + (l.map fun c => c.advTax).sum
        net := acc.net + (l.map fun c => c.netAmount).sum } := by
  induction l with
  | nil => intro acc; simp
  | cons a t ih =>
    intro acc
    simp only [List.foldl_cons, List.map_cons, List.sum_cons]
    rw [ih]
    congr 1 <;> ring

theorem totals_eq_sums (l : List CalculatedItem) :
    totals l =
      { gross := (l.map fun c => c.grossAmount).sum
        disc := (l.map fun c => c.discAmt).sum
        gst := (l.map fun c => c.gstAmt).sum
        addGst := (l.map fun c => c.addGst).sum
        advTax := (l.map fun c => c.advTax).sum
        net := (l.map fun c => c.netAmount).sum } := by
  unfold totals
  rw [totals_foldl_eq]
  simp

theorem totals2_foldl_eq (l : List CalculatedItem2) : ∀ acc : Totals2,
    List.foldl
      (fun acc item =>
        { subTotal := acc.subTotal + item.amount
          discount := acc.discount + item.discount
          total := acc.total + item.netAmount })
      acc l =
      { subTotal := acc.subTotal + (l.map fun c => c.amount).sum
        discount := acc.discount + (l.map fun c => c.discount).sum
        total := acc.total + (l.map fun c => c.netAmount).sum } := by
  induction l with
  | nil => intro acc; simp
  | cons a t ih =>
    intro acc
    simp only [List.foldl_cons, List.map_cons, List.sum_cons]
    rw [ih]
    congr 1 <;> ring

theorem totals2_eq_sums (l : List CalculatedItem2) :
    totals2 l =
      { subTotal := (l.map fun c => c.amount).sum
        discount := (l.map fun c => c.discount).sum
        total := (l.map fun c => c.netAmount).sum } := by
  unfold totals2
  rw [totals2_foldl_eq]
  simp

theorem forall2_map_eq {α β : Type} {r : α → α → Prop} (f : α → β) {l₁ l₂ : List α}
    (h : List.Forall₂ r l₁ l₂) (hf : ∀ a b, r a b → f a = f b) :
    l₁.map f = l₂.map f := by
  induction h with
  | nil => rfl
  | cons hab _ ih => simp only [List.map_cons]; rw [hf _ _ hab, ih]

/-! ### Further helper lemmas -/

theorem netAmount_calculatedItem (i : Item) :
    (calculatedItem i).netAmount =
      (i.qty * i.tp - (i.qty * i.tp * i.discPercent) / 100) +
        ((i.qty * i.tp - (i.qty * i.tp * i.discPercent) / 100) * i.gstPercent) / 100 +
        i.addGst + i.advTax := rfl

theorem calc_fields_eq {a b : Item} (hab : eqExceptMrp a b) :
    (calculatedItem a).grossAmount = (calculatedItem b).grossAmount ∧
    (calculatedItem a).discAmt = (calculatedItem b).discAmt ∧
    (calculatedItem a).gstAmt = (calculatedItem b).gstAmt ∧
    (calculatedItem a).netAmount = (calculatedItem b).netAmount ∧
    (calculatedItem a).addGst = (calculatedItem b).addGst ∧
    (calculatedItem a).advTax = (calculatedItem b).advTax := by
  rcases hab with ⟨-, -, -, -, -, hq, ht, hd, hg, ha, hv⟩
  refine ⟨?_, ?_, ?_, ?_, ?_, ?_⟩ <;> simp [calculatedItem, hq, ht, hd, hg, ha, hv]

/-! ## Claim theorems -/

/-- C1 (counterexample): the claimed formulas do not hold in the second
invoice form.  On the concrete row `qty = 2, price = 100, discount = 0,
gstPercent = 5`, the code of `src/src/app/page.tsx` computes
`netAmount = 200` while the spec's formulas demand `210`: the second
form applies no GST at all. -/
theorem form2_ignores_gst_cex :
    (calculatedItem2 gstItem2).netAmount = 200 ∧
    specFormulaNet gstItem2.qty gstItem2.price 0 gstItem2.gstPercent 0 0 = 210 ∧
    (calculatedItem2 gstItem2).netAmount ≠
      specFormulaNet gstItem2.qty gstItem2.price 0 gstItem2.gstPercent 0 0 := by
  refine ⟨?_, ?_, ?_⟩ <;> norm_num [calculatedItem2, specFormulaNet, gstItem2]

/-- C1 (amended): in the first invoice form every computed row satisfies
`gross = qty * tp`, `discAmt = gross * discPercent / 100`,
`gstAmt = (gross - discAmt) * gstPercent / 100` and
`net = (gross - discAmt) + gstAmt + addGst + advTax`, and the scenario
row `2 / 100 / 10 / 5` yields `200 / 20 / 180 / 9 / 189`; the second
form instead computes `amount = qty * price` and
`netAmount = amount - discount` with a flat discount and no GST. -/
theorem line_item_formulas :
    (∀ i : Item,
      (calculatedItem i).grossAmount = i.qty * i.tp ∧
      (calculatedItem i).discAmt = (calculatedItem i).grossAmount * i.discPercent / 100 ∧
      (calculatedItem i).gstAmt =
        ((calculatedItem i).grossAmount - (calculatedItem i).discAmt) * i.gstPercent / 100 ∧
      (calculatedItem i).netAmount =
        ((calculatedItem i).grossAmount - (calculatedItem i).discAmt) +
          (calculatedItem i).gstAmt + i.addGst + i.advTax) ∧
    ((calculatedItem scenarioItem).grossAmount = 200 ∧
      (calculatedItem scenarioItem).discAmt = 20 ∧
      (calculatedItem scenarioItem).grossAmount - (calculatedItem scenarioItem).discAmt = 180 ∧
      (calculatedItem scenarioItem).gstAmt = 9 ∧
      (calculatedItem scenarioItem).netAmount = 189) ∧
    (∀ j : Item2,
      (calculatedItem2 j).amount = j.qty * j.price ∧
      (calculatedItem2 j).netAmount = (calculatedItem2 j).amount - j.discount) := by
  refine ⟨fun i => ⟨rfl, rfl, rfl, rfl⟩, ?_, fun j => ⟨rfl, rfl⟩⟩
  refine ⟨?_, ?_, ?_, ?_, ?_⟩ <;>
    norm_num [calculatedItem, scenarioItem, blankItem]

/-- C2: after any finite sequence of add-row, remove-row and navigation
operations deliverable from the initial state, the focus names a row id
present in the current item collection and a field of `fieldOrder`. -/
theorem focus_invariant (ops : List Op) (h : validTrace initState ops = true) :
    FocusLive (run initState ops) :=
  focusLive_run ops initState idInv_initState focusLive_initState h

/-- C2 witness: a concrete valid trace (advance through a cell, add a
row, remove row 1, press ArrowUp) ends with a live focus. -/
theorem focus_invariant_witness :
    FocusLive (run initState
      [Op.key Key.enter 1 "code", Op.add, Op.remove 1, Op.key Key.arrowUp 2 "qty"]) :=
  focus_invariant _ (by decide)

/-- C3: an Advance event at focus `(r, f)` moves to `(r, next f)` when
`f` is not the last field; otherwise to the first field of the next row
when one exists; otherwise it runs `addItem`, growing the collection by
one row and focusing the first field of the new row, which exists in
the resulting state. -/
theorem advance_transition (s : NavState) (h : FocusLive s) : EnterSpec s := by
  obtain ⟨hr, hf⟩ := h
  have hfind : ∃ j : Nat,
      jsFindIndex (fun it => it.id == s.focus.rowId) s.items = (j : Int) ∧
        j < s.items.length := by
    rcases List.mem_map.1 hr with ⟨it, hmem, hid⟩
    exact jsFindIndex_of_mem ⟨it, hmem, by rw [beq_iff_eq]; exact hid⟩
  constructor
  · intro hne
    have hf2 : s.focus.field = "code" ∨ s.focus.field = "desc" ∨
        s.focus.field = "packSize" ∨ s.focus.field = "batchNo" ∨
        s.focus.field = "qty" ∨ s.focus.field = "tp" ∨ s.focus.field = "mrp" ∨
        s.focus.field = "discPercent" ∨ s.focus.field = "gstPercent" ∨
        s.focus.field = "addGst" ∨ s.focus.field = "advTax" := by
      simpa [fieldOrder] using hf
    rcases hf2 with h1 | h1 | h1 | h1 | h1 | h1 | h1 | h1 | h1 | h1 | h1 <;>
      first
        | exact absurd h1 hne
        | (rw [h1]; exact ⟨rfl, rfl, rfl⟩)
  · intro hadv j hjeq
    constructor
    · intro hlt
      rw [hadv]
      unfold handleKeyDown
      rw [if_pos (Or.inl rfl), if_neg (by decide)]
      rw [hjeq, if_pos (by omega)]
      have hget : jsItemGet s.items ((j : Int) + 1) = s.items.getD (j + 1) (blankItem 0) := by
        unfold jsItemGet
        rw [if_neg (by omega)]
        rw [show ((j : Int) + 1).toNat = j + 1 by omega]
      rw [hget]
      exact ⟨rfl, rfl⟩
    · intro hlen
      refine ⟨?_, rfl, ?_, by simp [addItem]⟩
      · rw [hadv]
        unfold handleKeyDown
        rw [if_pos (Or.inl rfl), if_neg (by decide)]
        rw [hjeq, if_neg (by omega)]
      · simp [addItem, itemIds, blankItem]

/-- C3 witness: the Advance behaviour holds at the initial state. -/
theorem advance_transition_witness : EnterSpec initState :=
  advance_transition initState ⟨by decide, by decide⟩

/-- C4: removing a row never empties the collection; removing the
focused row refocuses the first field of the first remaining row;
removing with at most one row left resets to a single blank row focused
at its first field. -/
theorem remove_never_empties (s : NavState) (id : Nat)
    (hnd : (itemIds s.items).Nodup) : RemoveSpec s id := by
  refine ⟨?_, ?_, ?_⟩
  · by_cases hlen : s.items.length ≤ 1
    · unfold removeItem
      rw [if_pos hlen]
      simp
    · unfold removeItem
      rw [if_neg hlen]
      exact filter_ne_nonempty (by omega) hnd
  · intro hlen
    unfold removeItem
    rw [if_pos hlen]
    exact ⟨rfl, rfl⟩
  · intro hlen hfoc
    unfold removeItem
    rw [if_neg (by omega)]
    show (if s.focus.rowId = id then _ else _) = _
    rw [if_pos hfoc]

/-- C4 witness: removing the sole row of the initial state resets to
one blank row focused at `(1, code)`. -/
theorem remove_never_empties_witness : RemoveSpec initState 1 :=
  remove_never_empties initState 1 (by decide)

/-- C5: the totals of both forms are the field-wise sums of their
computed line items, and the empty item list yields all-zero totals. -/
theorem totals_fieldwise :
    (∀ l : List CalculatedItem,
      totals l =
        { gross := (l.map fun c => c.grossAmount).sum
          disc := (l.map fun c => c.discAmt).sum
          gst := (l.map fun c => c.gstAmt).sum
          addGst := (l.map fun c => c.addGst).sum
          advTax := (l.map fun c => c.advTax).sum
          net := (l.map fun c => c.netAmount).sum }) ∧
    totals [] = { gross := 0, disc := 0, gst := 0, addGst := 0, advTax := 0, net := 0 } ∧
    (∀ l : List CalculatedItem2,
      totals2 l =
        { subTotal := (l.map fun c => c.amount).sum
          discount := (l.map fun c => c.discount).sum
          total := (l.map fun c => c.netAmount).sum }) ∧
    totals2 [] = { subTotal := 0, discount := 0, total := 0 } :=
  ⟨totals_eq_sums, rfl, totals2_eq_sums, rfl⟩

/-- C6: the totals are invariant under any permutation of the computed
item sequence. -/
theorem totals_perm_invariant (l₁ l₂ : List CalculatedItem) (h : l₁.Perm l₂) :
    totals l₁ = totals l₂ := by
  rw [totals_eq_sums, totals_eq_sums,
    (h.map fun c => c.grossAmount).sum_eq,
    (h.map fun c => c.discAmt).sum_eq,
    (h.map fun c => c.gstAmt).sum_eq,
    (h.map fun c => c.addGst).sum_eq,
    (h.map fun c => c.advTax).sum_eq,
    (h.map fun c => c.netAmount).sum_eq]

/-- C6 witness: swapping two concrete rows leaves the totals unchanged. -/
theorem totals_perm_invariant_witness :
    totals [permItemA, permItemB] = totals [permItemB, permItemA] :=
  totals_perm_invariant _ _ (List.Perm.swap permItemB permItemA [])

/-- C7 (counterexample): with every field non-negative but
`discPercent = 200`, raising the quantity from 1 to 2 lowers the net
amount from `-100` to `-200`, so `netAmount` is not monotone in
`quantity` under non-negativity alone. -/
theorem net_decreasing_cex :
    (0 ≤ steepDiscountItem.qty ∧ 0 ≤ steepDiscountItem.tp ∧ 0 ≤ steepDiscountItem.mrp ∧
      0 ≤ steepDiscountItem.discPercent ∧ 0 ≤ steepDiscountItem.gstPercent ∧
      0 ≤ steepDiscountItem.addGst ∧ 0 ≤ steepDiscountItem.advTax) ∧
    steepDiscountItem.qty ≤ 2 ∧
    (calculatedItem { steepDiscountItem with qty := 2 }).netAmount <
      (calculatedItem steepDiscountItem).netAmount := by
  refine ⟨⟨?_, ?_, ?_, ?_, ?_, ?_, ?_⟩, ?_, ?_⟩ <;>
    norm_num [calculatedItem, steepDiscountItem, blankItem]

/-- C7 (amended): when every numeric field is non-negative and the
discount percentage does not exceed 100, raising `qty` or `tp` alone
never lowers `netAmount`. -/
theorem net_monotone (i : Item) (q2 t2 : ℚ)
    (hq : 0 ≤ i.qty) (ht : 0 ≤ i.tp) (hd : 0 ≤ i.discPercent) (hg : 0 ≤ i.gstPercent)
    (ha : 0 ≤ i.addGst) (hv : 0 ≤ i.advTax) (hd100 : i.discPercent ≤ 100)
    (hq2 : i.qty ≤ q2) (ht2 : i.tp ≤ t2) :
    (calculatedItem i).netAmount ≤ (calculatedItem { i with qty := q2 }).netAmount ∧
    (calculatedItem i).netAmount ≤ (calculatedItem { i with tp := t2 }).netAmount := by
  rw [netAmount_calculatedItem, netAmount_calculatedItem, netAmount_calculatedItem]
  constructor
  · nlinarith [mul_nonneg (mul_nonneg (mul_nonneg (sub_nonneg.2 hq2) ht)
      (sub_nonneg.2 hd100)) (by linarith : (0 : ℚ) ≤ 100 + i.gstPercent)]
  · nlinarith [mul_nonneg (mul_nonneg (mul_nonneg (sub_nonneg.2 ht2) hq)
      (sub_nonneg.2 hd100)) (by linarith : (0 : ℚ) ≤ 100 + i.gstPercent)]

/-- C7 witness: monotonicity at a concrete in-range row. -/
theorem net_monotone_witness :
    (calculatedItem monoBaseItem).netAmount ≤
      (calculatedItem { monoBaseItem with qty := 3 }).netAmount ∧
    (calculatedItem monoBaseItem).netAmount ≤
      (calculatedItem { monoBaseItem with tp := 20 }).netAmount :=
  net_monotone monoBaseItem 3 20
    (by norm_num [monoBaseItem, blankItem]) (by norm_num [monoBaseItem, blankItem])
    (by norm_num [monoBaseItem, blankItem]) (by norm_num [monoBaseItem, blankItem])
    (by norm_num [monoBaseItem, blankItem]) (by norm_num [monoBaseItem, blankItem])
    (by norm_num [monoBaseItem, blankItem]) (by norm_num [monoBaseItem, blankItem])
    (by norm_num [monoBaseItem, blankItem])

/-- C8 (counterexample): id 1 exists initially, is destroyed by
`remove 1`, and after removing the last remaining row the reset branch
recreates a row with id 1 — ids are reused within a session. -/
theorem id_reuse_cex :
    1 ∈ itemIds initState.items ∧
    1 ∉ itemIds (run initState [Op.add, Op.remove 1]).items ∧
    1 ∈ itemIds (run initState [Op.add, Op.remove 1, Op.remove 2]).items := by
  refine ⟨by decide, by decide, by decide⟩

/-- C8 (amended): along every interaction sequence the row ids stay
positive and pairwise distinct, and the id the next `addItem` assigns
(`maxId + 1`, the focus row of `addItem`) strictly exceeds every live
id; ids may however be reused after the sole-row reset. -/
theorem ids_positive_unique_fresh (ops : List Op) :
    IdInv ((run initState ops).items) ∧
    ∀ n ∈ itemIds (run initState ops).items,
      n < (addItem (run initState ops)).focus.rowId := by
  refine ⟨idInv_run ops initState idInv_initState, ?_⟩
  intro n hn
  show n < maxIdOf (run initState ops).items + 1
  exact Nat.lt_succ_of_le (mem_le_maxIdOf hn)

/-- C8 witness: after one add the live ids are below the next fresh id. -/
theorem ids_positive_unique_fresh_witness :
    2 ∈ itemIds (run initState [Op.add]).items ∧
    2 < (addItem (run initState [Op.add])).focus.rowId :=
  ⟨by decide, (ids_positive_unique_fresh [Op.add]).2 2 (by decide)⟩

/-- C9: the words formatter returns the fixed zero phrase on 0, and its
outputs on 1500, 100000 and 10000000 contain "One Thousand Five
Hundred", "One Lakh" and "One Crore" respectively. -/
theorem amount_in_words_values :
    amountInWords 0 = "Zero Rupees Only" ∧
    (∃ pre post, amountInWords 1500 = pre ++ "One Thousand Five Hundred" ++ post) ∧
    (∃ pre post, amountInWords 100000 = pre ++ "One Lakh" ++ post) ∧
    (∃ pre post, amountInWords 10000000 = pre ++ "One Crore" ++ post) := by
  refine ⟨rfl, ⟨"Rupees ", "  Only", ?_⟩, ⟨"Rupees ", "  Only", ?_⟩,
    ⟨"Rupees ", "  Only", ?_⟩⟩
  · rw [show (1500 : ℚ) = ((1500 : ℕ) : ℚ) by norm_cast, amountInWords_natCast]
    decide
  · rw [show (100000 : ℚ) = ((100000 : ℕ) : ℚ) by norm_cast, amountInWords_natCast]
    decide
  · rw [show (10000000 : ℚ) = ((10000000 : ℕ) : ℚ) by norm_cast, amountInWords_natCast]
    decide

/-- C10: two item lists that agree everywhere except possibly in `mrp`
produce identical per-line computed amounts and identical totals. -/
theorem mrp_noninterference (l₁ l₂ : List Item) (h : List.Forall₂ eqExceptMrp l₁ l₂) :
    (calculatedItems l₁).map computedFields = (calculatedItems l₂).map computedFields ∧
    totals (calculatedItems l₁) = totals (calculatedItems l₂) := by
  have hsum : ∀ g : CalculatedItem → ℚ,
      (∀ a b, eqExceptMrp a b → g (calculatedItem a) = g (calculatedItem b)) →
      ((l₁.map calculatedItem).map g) = ((l₂.map calculatedItem).map g) := by
    intro g hg
    rw [List.map_map, List.map_map]
    exact forall2_map_eq (g ∘ calculatedItem) h hg
  constructor
  · unfold calculatedItems
    rw [List.map_map, List.map_map]
    refine forall2_map_eq (computedFields ∘ calculatedItem) h ?_
    intro a b hab
    rcases calc_fields_eq hab with ⟨h1, h2, h3, h4, -, -⟩
    simp [Function.comp, computedFields, h1, h2, h3, h4]
  · unfold calculatedItems
    rw [totals_eq_sums, totals_eq_sums]
    rw [hsum (fun c => c.grossAmount) (fun a b hab => (calc_fields_eq hab).1),
      hsum (fun c => c.discAmt) (fun a b hab => (calc_fields_eq hab).2.1),
      hsum (fun c => c.gstAmt) (fun a b hab => (calc_fields_eq hab).2.2.1),
      hsum (fun c => c.addGst) (fun a b hab => (calc_fields_eq hab).2.2.2.2.1),
      hsum (fun c => c.advTax) (fun a b hab => (calc_fields_eq hab).2.2.2.2.2),
      hsum (fun c => c.netAmount) (fun a b hab => (calc_fields_eq hab).2.2.2.1)]

/-- C10 witness: changing only `mrp` on a concrete row changes neither
the computed amounts nor the totals. -/
theorem mrp_noninterference_witness :
    (calculatedItems [mrpItemLow]).map computedFields =
      (calculatedItems [mrpItemHigh]).map computedFields ∧
    totals (calculatedItems [mrpItemLow]) = totals (calculatedItems [mrpItemHigh]) :=
  mrp_noninterference [mrpItemLow] [mrpItemHigh]
    (List.Forall₂.cons
      ⟨rfl, rfl, rfl, rfl, rfl, rfl, rfl, rfl, rfl, rfl, rfl⟩
      List.Forall₂.nil)
